import Mathlib

/-!
Verification of the name-uniqueness resolution and joint-extraction core of
the fusion2urdf URDF exporter, as a shallow embedding of
`URDF_Exporter/utils/name_manager.py`, `URDF_Exporter/core/Joint.py` and
`URDF_Exporter/utils/utils.py`.

Python strings become `String`, Python dicts become insertion-ordered
association lists (`pyInsert` mirrors dict assignment: update in place,
append if the key is new), Python sets of strings become lists with
membership semantics, floats become `ℚ` with `round(x, 6)` modelled by
`round6`, and a Python `IndexError` escaping a function is modelled by
`Option`/`none`.
-/

namespace Fusion2Urdf

/- The Batteries rational operations are `@[irreducible]`, which blocks
`decide` from evaluating the embedded joint computations on concrete
witnesses; restore default reducibility for this development (the kernel
re-checks every such proof independently of reducibility attributes). -/
set_option allowUnsafeReducibility true

attribute [local semireducible] Rat.add Rat.sub Rat.mul Rat.div Rat.inv

/-! ### Python string primitives -/

/-- The whitespace characters recognised by Python's `str.split()` (ASCII range). -/
def pyIsSpace (c : Char) : Bool :=
  c == ' ' || c == '\t' || c == '\n' || c == '\x0b' || c == '\x0c' || c == '\r'

/-- Python's `str.lower()` (ASCII letters, as used by the exporter's names). -/
def strLower (s : String) : String :=
  String.mk (s.data.map Char.toLower)

/-- The first whitespace-delimited token of a character list: `s.split()[0]`
returns `some` of that token; `none` models the `IndexError` raised when the
list of tokens is empty. -/
def firstToken : List Char → Option (List Char)
  | [] => none
  | c :: cs =>
    if pyIsSpace c then firstToken cs
    else some (c :: cs.takeWhile (fun d => !(pyIsSpace d)))

/-- `is_base_link` from `Joint.py` lines 105-122 (identical copy in
`utils.py` lines 18-35): `component_name.split()[0].lower() == 'base_link'`.
`none` models the `IndexError` on an empty or all-whitespace name. -/
def is_base_link (component_name : String) : Option Bool :=
  match firstToken component_name.data with
  | none => none
  | some t => some (strLower (String.mk t) == "base_link")

/-! ### `NameManager.clean_name` -/

/-- `re.sub('[ :()]', '_', s)` on one character. -/
def replSpecial (c : Char) : Char :=
  if c == ' ' || c == ':' || c == '(' || c == ')' then '_' else c

/-- `re.sub('_+', '_', s)`: collapse runs of underscores to one. -/
def squeezeUnders : List Char → List Char
  | [] => []
  | [c] => [c]
  | a :: b :: rest =>
    if a == '_' && b == '_' then squeezeUnders (b :: rest)
    else a :: squeezeUnders (b :: rest)

/-- Python's `s.strip('_')`: drop leading and trailing underscores. -/
def stripUnders (l : List Char) : List Char :=
  ((l.dropWhile (fun c => c == '_')).reverse.dropWhile (fun c => c == '_')).reverse

/-- `NameManager.clean_name` (`name_manager.py` lines 18-36): remove commas,
replace spaces/colons/parentheses with underscores, collapse runs of
underscores, strip leading/trailing underscores, lowercase. -/
def clean_name (name : String) : String :=
  strLower (String.mk (stripUnders (squeezeUnders
    ((name.data.filter (fun c => !(c == ','))).map replSpecial))))

/-! ### Association lists with Python-dict semantics -/

/-- Python dict lookup `m.get(key)` / `key in m`. -/
def alookup {α : Type} : List (String × α) → String → Option α
  | [], _ => none
  | (k, v) :: rest, key => if k = key then some v else alookup rest key

/-- Python dict assignment `m[key] = v`: update in place if present,
append otherwise (insertion order preserved). -/
def pyInsert {α : Type} : List (String × α) → String → α → List (String × α)
  | [], key, v => [(key, v)]
  | (k, w) :: rest, key, v =>
    if k = key then (key, v) :: rest else (k, w) :: pyInsert rest key v

/-- Python set membership `x in s` for a set of strings. -/
def elemS : List String → String → Bool
  | [], _ => false
  | a :: rest, x => if a = x then true else elemS rest x

/-- Python `s.add(x)` for a set of strings. -/
def setAdd (s : List String) (x : String) : List String :=
  if elemS s x then s else s ++ [x]

/-! ### `NameManager` state and operations -/

/-- The state of `NameManager` (`name_manager.py` lines 12-16). -/
structure NameManager where
  link_name_map : List (String × String)
  link_name_counts : List (String × Nat)
  used_names : List String
  component_to_mesh : List (String × String)
  deriving DecidableEq

/-- `NameManager.__init__`: everything empty. -/
def initNM : NameManager := ⟨[], [], [], []⟩

/-- `NameManager.get_mesh_filename` (`name_manager.py` lines 38-65):
memoized per component name; the `base_link` branch of the source stores
`'base_link'` exactly when the cleaned name is already `'base_link'`. -/
def get_mesh_filename (nm : NameManager) (component_name : String) :
    String × NameManager :=
  match alookup nm.component_to_mesh component_name with
  | some m => (m, nm)
  | none =>
    let mesh_name := clean_name component_name
    if mesh_name = "base_link" then
      let ctm := pyInsert nm.component_to_mesh component_name "base_link"
      ("base_link", { nm with component_to_mesh := ctm })
    else
      let ctm := pyInsert nm.component_to_mesh component_name mesh_name
      (mesh_name, { nm with component_to_mesh := ctm })

/-- `NameManager.get_unique_link_name` (`name_manager.py` lines 67-119).
The `base_link` special case returns early only when `'base_link'` is not
yet used; otherwise control falls through to the counter logic. -/
def get_unique_link_name (nm : NameManager)
    (occurrence_name component_name : String) : String × NameManager :=
  match alookup nm.link_name_map occurrence_name with
  | some n => (n, nm)
  | none =>
    let base_name := clean_name component_name
    if base_name = "base_link" && !(elemS nm.used_names "base_link") then
      let lm := pyInsert nm.link_name_map occurrence_name "base_link"
      let un := setAdd nm.used_names "base_link"
      ("base_link", { nm with link_name_map := lm, used_names := un })
    else
      let p : String × List (String × Nat) :=
        match alookup nm.link_name_counts base_name with
        | some cnt =>
          (base_name ++ "_" ++ toString (cnt + 1),
           pyInsert nm.link_name_counts base_name (cnt + 1))
        | none =>
          if elemS nm.used_names base_name then
            (base_name ++ "_1", pyInsert nm.link_name_counts base_name 1)
          else
            (base_name, pyInsert nm.link_name_counts base_name 0)
      let lm := pyInsert nm.link_name_map occurrence_name p.1
      let un := setAdd nm.used_names p.1
      (p.1, { nm with link_name_map := lm, link_name_counts := p.2, used_names := un })

/-- `NameManager.get_link_name_for_occurrence` (lines 121-135). -/
def get_link_name_for_occurrence (nm : NameManager) (occurrence_name : String) :
    Option String :=
  alookup nm.link_name_map occurrence_name

/-- `NameManager.get_unique_joint_name` (lines 137-151): just `clean_name`. -/
def get_unique_joint_name (_nm : NameManager) (joint_name : String) : String :=
  clean_name joint_name

/-! ### Geometry: vectors, matrices, rounding (`Joint.py` lines 226-260) -/

/-- A 3-element array of floats, modelled over `ℚ`. -/
structure Vec3 where
  x : ℚ
  y : ℚ
  z : ℚ
  deriving DecidableEq

/-- A 4x4 transform as a 16-element array (`transform.asArray()`), row-major:
entry `i*4 + j` is row `i`, column `j`. -/
structure Mat4 where
  m0 : ℚ
  m1 : ℚ
  m2 : ℚ
  m3 : ℚ
  m4 : ℚ
  m5 : ℚ
  m6 : ℚ
  m7 : ℚ
  m8 : ℚ
  m9 : ℚ
  m10 : ℚ
  m11 : ℚ
  m12 : ℚ
  m13 : ℚ
  m14 : ℚ
  m15 : ℚ
  deriving DecidableEq

/-- Python's `round(q, 6)` over the rational model. -/
def round6 (q : ℚ) : ℚ := (round (q * 1000000) : ℤ) / 1000000

/-- `[round(i, 6) for i in v]`. -/
def roundVec (v : Vec3) : Vec3 := ⟨round6 v.x, round6 v.y, round6 v.z⟩

/-- `[round(i / 100.0, 6) for i in v]` (centimeter to meter conversion). -/
def div100round (v : Vec3) : Vec3 :=
  ⟨round6 (v.x / 100), round6 (v.y / 100), round6 (v.z / 100)⟩

/-- The local `trans(M, a)` of `make_joints_dict` (`Joint.py` lines 229-237):
`b[i] = a[0]*M[i*4] + a[1]*M[i*4+1] + a[2]*M[i*4+2] + M[i*4+3]`. -/
def trans (M : Mat4) (a : Vec3) : Vec3 :=
  ⟨a.x * M.m0 + a.y * M.m1 + a.z * M.m2 + M.m3,
   a.x * M.m4 + a.y * M.m5 + a.z * M.m6 + M.m7,
   a.x * M.m8 + a.y * M.m9 + a.z * M.m10 + M.m11⟩

/-- The local `allclose(v1, v2, tol=1e-6)` of `make_joints_dict`
(`Joint.py` lines 241-242): `max(|a-b|) < tol`, element-wise, strict. -/
def allclose (v₁ v₂ : Vec3) : Bool :=
  decide (max (max |v₁.x - v₂.x| |v₁.y - v₂.y|) |v₁.z - v₂.z| < (1 : ℚ) / 1000000)

/-! ### Joint inputs (the host scene-graph data read by `make_joints_dict`) -/

/-- The five geometry reads of the `try` block (`Joint.py` lines 244-249),
available together or not at all (any failed attribute access raises). -/
structure Geometry where
  xyzFromOneToJoint : Vec3
  xyzFromTwoToJoint : Vec3
  xyzOfOne : Vec3
  xyzOfTwo : Vec3
  mTwo : Mat4
  deriving DecidableEq

/-- One `joint` record of `root.joints` as read by `make_joints_dict`:
motion-type ordinal, rotation/slide axis and limit accessors, the two
endpoint occurrences (name and component name), and the origin geometry.
`geomFallback` is the origin read by the first `except` branch
(`Joint.py` lines 263-268), `none` when that also fails. -/
structure JointInput where
  name : String
  jointTypeIx : Fin 7
  rotationAxis : Vec3
  rotMaxEnabled : Bool
  rotMinEnabled : Bool
  rotMax : ℚ
  rotMin : ℚ
  slideAxis : Vec3
  slideMaxEnabled : Bool
  slideMinEnabled : Bool
  slideMax : ℚ
  slideMin : ℚ
  occOneName : String
  occOneComp : String
  occTwoName : String
  occTwoComp : String
  geometry : Option Geometry
  geomFallback : Option Vec3
  deriving DecidableEq

/-- The record stored per joint in `joints_dict`:
`{type, axis, upper_limit, lower_limit, parent, child, xyz}`. -/
structure JointRecord where
  jtype : String
  axis : Vec3
  upper_limit : ℚ
  lower_limit : ℚ
  parent : String
  child : String
  xyz : Vec3
  deriving DecidableEq

/-- `joint_type_list` (`Joint.py` lines 147-149). -/
def jointTypeList : List String :=
  ["fixed", "revolute", "prismatic", "Cylinderical", "PinSlot", "Planner", "Ball"]

/-- `joint_type_list[joint.jointMotion.jointType]`. -/
def jtName (j : JointInput) : String := jointTypeList.getD j.jointTypeIx.val ""

/-! ### `make_joints_dict` (`Joint.py` lines 125-280), name-manager path -/

/-- Axis/limit processing (`Joint.py` lines 158-196): returns the possibly
reclassified type, the axis, and the two limits, or the `break` message for
an asymmetric limit pair. -/
def limitsPhase (j : JointInput) (jt : String) :
    Except String (String × Vec3 × ℚ × ℚ) :=
  if jt = "revolute" then
    let axis := roundVec j.rotationAxis
    if j.rotMaxEnabled && j.rotMinEnabled then
      Except.ok (jt, axis, round6 j.rotMax, round6 j.rotMin)
    else if j.rotMaxEnabled && !j.rotMinEnabled then
      Except.error (j.name ++ " is not set its lower limit. Please set it and try again.")
    else if !j.rotMaxEnabled && j.rotMinEnabled then
      Except.error (j.name ++ " is not set its upper limit. Please set it and try again.")
    else
      Except.ok ("continuous", axis, 0, 0)
  else if jt = "prismatic" then
    let axis := roundVec j.slideAxis
    if j.slideMaxEnabled && j.slideMinEnabled then
      Except.ok (jt, axis, round6 (j.slideMax / 100), round6 (j.slideMin / 100))
    else if j.slideMaxEnabled && !j.slideMinEnabled then
      Except.error (j.name ++ " is not set its lower limit. Please set it and try again.")
    else if !j.slideMaxEnabled && j.slideMinEnabled then
      Except.error (j.name ++ " is not set its upper limit. Please set it and try again.")
    else
      Except.ok (jt, axis, 0, 0)
  else
    Except.ok (jt, ⟨0, 0, 0⟩, 0, 0)

/-- Parent/child name resolution with a name manager (`Joint.py` lines
199-212). `none` models the uncaught `IndexError` from `is_base_link` on an
empty or all-whitespace parent component name. -/
def namePhase (nm : NameManager) (j : JointInput) :
    Option (String × String × NameManager) :=
  match is_base_link j.occTwoComp with
  | none => none
  | some b =>
    let pr : String × NameManager :=
      if b then ("base_link", nm)
      else
        match get_link_name_for_occurrence nm j.occTwoName with
        | some p => (p, nm)
        | none => get_unique_link_name nm j.occTwoName j.occTwoComp
    let cr : String × NameManager :=
      match get_link_name_for_occurrence pr.2 j.occOneName with
      | some c => (c, pr.2)
      | none => get_unique_link_name pr.2 j.occOneName j.occOneComp
    some (pr.1, cr.1, cr.2)

/-- Joint-position composition for fully available geometry
(`Joint.py` lines 252-260). -/
def jointXyz (g : Geometry) : Vec3 :=
  let case1 := allclose g.xyzFromTwoToJoint g.xyzFromOneToJoint
  let case2 := allclose g.xyzFromTwoToJoint g.xyzOfOne
  if case1 || case2 then div100round g.xyzFromTwoToJoint
  else div100round (trans g.mTwo g.xyzFromTwoToJoint)

/-- Origin computation with fallback (`Joint.py` lines 244-271): the `try`
with full geometry, the first `except` reading a single origin point, and
the final `break` message when both fail. -/
def originPhase (j : JointInput) : Except String Vec3 :=
  match j.geometry with
  | some g => Except.ok (jointXyz g)
  | none =>
    match j.geomFallback with
    | some d => Except.ok (div100round d)
    | none =>
      Except.error (j.name ++ " doesn't have joint origin. Please set it and run again.")

/-- Outcome of one loop iteration of `make_joints_dict`: an uncaught
exception, a `break` with the message it sets, or a stored record. -/
inductive StepResult where
  | crash : StepResult
  | brk : String → StepResult
  | ok : NameManager → String → JointRecord → StepResult
  deriving DecidableEq

/-- One iteration of the `for joint in root.joints` loop, in source order:
limits (lines 158-196, `break` first), names (lines 199-212, may raise),
origin (lines 244-271, `break` last), then the key `clean_name(joint.name)`
under which the record is stored (lines 274-279). -/
def stepJoint (nm : NameManager) (j : JointInput) : StepResult :=
  match limitsPhase j (jtName j) with
  | Except.error m => StepResult.brk m
  | Except.ok (ty, axis, ul, ll) =>
    match namePhase nm j with
    | none => StepResult.crash
    | some (parent, child, nm₁) =>
      match originPhase j with
      | Except.error m => StepResult.brk m
      | Except.ok xyz =>
        StepResult.ok nm₁ (get_unique_joint_name nm₁ j.name)
          ⟨ty, axis, ul, ll, parent, child, xyz⟩

/-- `joints_dict`, a Python dict from joint name to record. -/
abbrev JDict : Type := List (String × JointRecord)

/-- The loop of `make_joints_dict`: accumulate records, stop with the
message on `break`, `none` on an uncaught exception. -/
def processJoints (nm : NameManager) (d : JDict) (msg : String) :
    List JointInput → Option (JDict × String)
  | [] => some (d, msg)
  | j :: rest =>
    match stepJoint nm j with
    | StepResult.crash => none
    | StepResult.brk m => some (d, m)
    | StepResult.ok nm₁ key r => processJoints nm₁ (pyInsert d key r) msg rest

/-- `make_joints_dict(root, msg, name_manager)` (`Joint.py` lines 125-280)
over the joint list of the root, with a name manager supplied, returning
`(joints_dict, msg)`; `none` models an uncaught `IndexError`. -/
def make_joints_dict (joints : List JointInput) (msg : String)
    (nm : NameManager) : Option (JDict × String) :=
  processJoints nm [] msg joints

/-- Processing that succeeds on every joint: `some` of the final manager and
dict exactly when no iteration breaks or raises. -/
def runOk (nm : NameManager) (d : JDict) :
    List JointInput → Option (NameManager × JDict)
  | [] => some (nm, d)
  | j :: rest =>
    match stepJoint nm j with
    | StepResult.ok nm₁ key r => runOk nm₁ (pyInsert d key r) rest
    | _ => none

/-! ### Interleavings of name-manager operations -/

/-- One call against the shared `NameManager` instance, as issued by the
link/joint extractors and the mesh exporter during one run. -/
inductive NMOp where
  | resolveLink : String → String → NMOp
  | meshName : String → NMOp
  | jointName : String → NMOp
  deriving DecidableEq

/-- Apply one call, keeping only the state. -/
def applyOp (nm : NameManager) : NMOp → NameManager
  | NMOp.resolveLink occ comp => (get_unique_link_name nm occ comp).2
  | NMOp.meshName comp => (get_mesh_filename nm comp).2
  | NMOp.jointName _ => nm

/-- Run a sequence of calls from a state. -/
def runOps (nm : NameManager) (ops : List NMOp) : NameManager :=
  ops.foldl applyOp nm

/-- The bound named by the `break` message of an asymmetric limit pair:
when the upper (maximum) bound is the enabled one, the lower is missing,
and conversely. -/
def asymMissing (j : JointInput) : String :=
  if jtName j = "revolute" then
    (if j.rotMaxEnabled then "lower" else "upper")
  else
    (if j.slideMaxEnabled then "lower" else "upper")

/-- The mesh map only ever stores the cleaned name of its key. -/
def MeshInv (nm : NameManager) : Prop :=
  ∀ k v, alookup nm.component_to_mesh k = some v → v = clean_name k

/-! ### Concrete inputs used by witnesses and counterexamples -/

/-- Zero vector. -/
def vz : Vec3 := ⟨0, 0, 0⟩

/-- Zero matrix. -/
def mat0 : Mat4 := ⟨0, 0, 0, 0, 0, 0, 0, 0, 0, 0, 0, 0, 0, 0, 0, 0⟩

/-- Geometry whose points all coincide (so `case1` holds). -/
def g0 : Geometry := ⟨vz, vz, vz, vz, mat0⟩

/-- A prismatic joint with both slide limits enabled at 250 and -100. -/
def jPris : JointInput :=
  ⟨"j1", 2, vz, false, false, 0, 0, ⟨1, 0, 0⟩, true, true, 250, -100,
   "oc1", "armc", "oc2", "basec", some g0, none⟩

/-- A revolute joint with both rotation limits disabled. -/
def jRevC : JointInput :=
  ⟨"j2", 1, ⟨0, 0, 1⟩, false, false, 0, 0, vz, false, false, 0, 0,
   "oc1", "armc", "oc2", "basec", some g0, none⟩

/-- A revolute joint with only its upper rotation limit enabled. -/
def badRev : JointInput :=
  ⟨"j1", 1, ⟨0, 0, 1⟩, true, false, 3, 0, vz, false, false, 0, 0,
   "oc1", "armc", "oc2", "basec", some g0, none⟩

/-- A fixed joint whose parent component name is empty. -/
def jCrash : JointInput :=
  ⟨"j3", 0, vz, false, false, 0, 0, vz, false, false, 0, 0,
   "oc1", "armc", "oc2", "", some g0, none⟩

/-- A fixed joint whose parent component name is all whitespace. -/
def jCrash2 : JointInput :=
  ⟨"j3", 0, vz, false, false, 0, 0, vz, false, false, 0, 0,
   "oc1", "armc", "oc2", "  ", some g0, none⟩

/-- A fixed joint whose parent component name is a versioned base link. -/
def jBaseV : JointInput :=
  ⟨"j4", 0, vz, false, false, 0, 0, vz, false, false, 0, 0,
   "oc1", "armc", "oc2", "base_link v2", some g0, none⟩

/-- The name-manager state after processing `jPris` from `initNM`. -/
def nmP : NameManager :=
  ⟨[("oc2", "basec"), ("oc1", "armc")], [("basec", 0), ("armc", 0)],
   ["basec", "armc"], []⟩

/-- The record stored for `jPris`. -/
def recP : JointRecord :=
  ⟨"prismatic", ⟨1, 0, 0⟩, 5 / 2, -1, "basec", "armc", ⟨0, 0, 0⟩⟩

/-- The record stored for `jRevC`. -/
def recC : JointRecord :=
  ⟨"continuous", ⟨0, 0, 1⟩, 0, 0, "basec", "armc", ⟨0, 0, 0⟩⟩

/-! ### Helper lemmas on the dict and set primitives -/

theorem alookup_pyInsert {α : Type} (m : List (String × α)) (k : String)
    (v : α) (k' : String) :
    alookup (pyInsert m k v) k' = if k = k' then some v else alookup m k' := by
  induction m with
  | nil => simp [pyInsert, alookup]
  | cons p rest ih =>
    obtain ⟨a, w⟩ := p
    by_cases hak : a = k
    · subst hak
      simp only [pyInsert, if_pos rfl, alookup]
      by_cases h' : a = k'
      · simp [h']
      · simp [h']
    · simp only [pyInsert, if_neg hak, alookup]
      by_cases h' : a = k'
      · subst h'
        rw [if_pos rfl, if_neg (fun h => hak h.symm), if_pos rfl]
      · rw [if_neg h', ih]
        by_cases hkk : k = k'
        · simp [hkk]
        · simp [hkk, h']

theorem alookup_pyInsert_self {α : Type} (m : List (String × α)) (k : String)
    (v : α) : alookup (pyInsert m k v) k = some v := by
  rw [alookup_pyInsert, if_pos rfl]

/-- After resolving an occurrence, the map binds it to the returned name. -/
theorem gul_map_self (nm : NameManager) (occ c : String) :
    alookup ((get_unique_link_name nm occ c).2).link_name_map occ =
      some (get_unique_link_name nm occ c).1 := by
  unfold get_unique_link_name
  cases h : alookup nm.link_name_map occ with
  | some n => simp [h]
  | none =>
    simp only [h]
    split
    · simp [alookup_pyInsert_self]
    · simp [alookup_pyInsert_self]

/-- `get_unique_link_name` never touches the mesh map. -/
theorem gul_mesh_unchanged (nm : NameManager) (occ c : String) :
    ((get_unique_link_name nm occ c).2).component_to_mesh =
      nm.component_to_mesh := by
  unfold get_unique_link_name
  cases h : alookup nm.link_name_map occ with
  | some n => simp [h]
  | none =>
    simp only [h]
    split
    · rfl
    · rfl

/-! ### C1 -/

/-- C1: the claimed pairwise-distinctness of resolved link names fails on
the code: from a fresh manager the calls ("o1", "arm_1"), ("o2", "arm"),
("o3", "arm") make the distinct occurrences "o1" and "o3" both resolve to
"arm_1", because the collision counter for base "arm" is never checked
against names already in `used_names` after its first assignment. This
contradicts the claim and the source's own docstrings ("ensure uniqueness",
"Get a unique name for a link"). -/
theorem link_name_uniqueness_violation :
    ("o1" : String) ≠ "o3" ∧
    (get_unique_link_name initNM "o1" "arm_1").1 = "arm_1" ∧
    (get_unique_link_name ((get_unique_link_name
        ((get_unique_link_name initNM "o1" "arm_1").2) "o2" "arm").2)
      "o3" "arm").1 = "arm_1" := by
  refine ⟨by decide, by decide, by decide⟩

/-! ### C2 -/

/-- C2 counterexample: on a fresh resolver, resolving an occurrence whose
component name is "base_link v2" does not return "base_link": it returns
"base_link_v2", because `get_unique_link_name` compares the fully cleaned
component name (spaces become underscores) against "base_link" and never
looks at the first whitespace-delimited token. -/
theorem base_link_version_precedence_cx :
    (get_unique_link_name initNM "occ1" "base_link v2").1 = "base_link_v2" ∧
    (get_unique_link_name initNM "occ1" "base_link v2").1 ≠ "base_link" := by
  refine ⟨by decide, by decide⟩

/-- C2 amended: the resolver's base-link special case compares the entire
cleaned component name with "base_link", so "base_link v2" resolves to
"base_link_v2" and a subsequent "Base_Link v9" to "base_link_v9"; component
names cleaning exactly to "base_link" get "base_link" first and
"base_link_1" on a second distinct occurrence. First-token recognition is
implemented by `is_base_link` (true on "base_link v2" and "Base_Link v9")
and applied during joint extraction, where a matching parent is forced to
"base_link" without consulting the resolver. -/
theorem base_link_version_precedence_amended :
    (get_unique_link_name initNM "o1" "base_link v2").1 = "base_link_v2" ∧
    (get_unique_link_name ((get_unique_link_name initNM "o1" "base_link v2").2)
      "o2" "Base_Link v9").1 = "base_link_v9" ∧
    (get_unique_link_name initNM "o1" "base_link").1 = "base_link" ∧
    (get_unique_link_name ((get_unique_link_name initNM "o1" "base_link").2)
      "o2" "Base_Link").1 = "base_link_1" ∧
    is_base_link "base_link v2" = some true ∧
    is_base_link "Base_Link v9" = some true ∧
    (match stepJoint initNM jBaseV with
     | StepResult.ok _ _ r => r.parent
     | _ => "") = "base_link" := by
  refine ⟨by decide, by decide, by decide, by decide, by decide, by decide, by decide⟩

/-! ### C7 -/

/-- C7: resolving the same occurrence id twice returns the identical name
both times, even when the component name differs on the second call: every
branch of `get_unique_link_name` memoizes the result in `link_name_map`
before returning. -/
theorem resolve_link_name_idempotent (nm : NameManager) (occ c₁ c₂ : String) :
    (get_unique_link_name ((get_unique_link_name nm occ c₁).2) occ c₂).1 =
      (get_unique_link_name nm occ c₁).1 := by
  have h := gul_map_self nm occ c₁
  set nm₁ := (get_unique_link_name nm occ c₁).2 with hnm₁
  set r₁ := (get_unique_link_name nm occ c₁).1 with hr₁
  rw [get_unique_link_name, h]

/-! ### C6 -/

/-- C6: from a fresh resolver, three distinct occurrences whose component
names all clean to "arm" resolve to "arm", "arm_1", "arm_2" in call order:
first use of a base name is bare, the N-th collision gets suffix `_N`. -/
theorem disambiguation_sequence (o₁ o₂ o₃ c₁ c₂ c₃ : String)
    (h₁ : clean_name c₁ = "arm") (h₂ : clean_name c₂ = "arm")
    (h₃ : clean_name c₃ = "arm")
    (h₁₂ : o₁ ≠ o₂) (h₁₃ : o₁ ≠ o₃) (h₂₃ : o₂ ≠ o₃) :
    (get_unique_link_name initNM o₁ c₁).1 = "arm" ∧
    (get_unique_link_name ((get_unique_link_name initNM o₁ c₁).2) o₂ c₂).1
      = "arm_1" ∧
    (get_unique_link_name ((get_unique_link_name
        ((get_unique_link_name initNM o₁ c₁).2) o₂ c₂).2) o₃ c₃).1
      = "arm_2" := by
  have e₁ : get_unique_link_name initNM o₁ c₁ =
      ("arm", ⟨[(o₁, "arm")], [("arm", 0)], ["arm"], []⟩) := by
    simp [get_unique_link_name, initNM, alookup, h₁, elemS, setAdd, pyInsert]
  have e₂ : get_unique_link_name
      (⟨[(o₁, "arm")], [("arm", 0)], ["arm"], []⟩ : NameManager) o₂ c₂ =
      ("arm_1", ⟨[(o₁, "arm"), (o₂, "arm_1")], [("arm", 1)],
        ["arm", "arm_1"], []⟩) := by
    (simp [get_unique_link_name, alookup, h₂, h₁₂, elemS, setAdd, pyInsert]; decide)
  have e₃ : (get_unique_link_name
      (⟨[(o₁, "arm"), (o₂, "arm_1")], [("arm", 1)],
        ["arm", "arm_1"], []⟩ : NameManager) o₃ c₃).1 = "arm_2" := by
    (simp [get_unique_link_name, alookup, h₃, h₁₃, h₂₃, elemS, setAdd, pyInsert]; decide)
  refine ⟨by rw [e₁], by rw [e₁, e₂], by rw [e₁, e₂]; exact e₃⟩

/-- C6 witness at occurrence ids "o1", "o2", "o3" and component name "Arm". -/
theorem disambiguation_sequence_witness :
    clean_name "Arm" = "arm" ∧ ("o1" : String) ≠ "o2" ∧
    (get_unique_link_name initNM "o1" "Arm").1 = "arm" ∧
    (get_unique_link_name ((get_unique_link_name initNM "o1" "Arm").2)
      "o2" "Arm").1 = "arm_1" ∧
    (get_unique_link_name ((get_unique_link_name
        ((get_unique_link_name initNM "o1" "Arm").2) "o2" "Arm").2)
      "o3" "Arm").1 = "arm_2" := by
  have h := disambiguation_sequence "o1" "o2" "o3" "Arm" "Arm" "Arm"
    (by decide) (by decide) (by decide) (by decide) (by decide) (by decide)
  exact ⟨by decide, by decide, h.1, h.2.1, h.2.2⟩

/-! ### C9 -/

theorem meshInv_init : MeshInv initNM := by
  intro k v h
  simp [initNM, alookup] at h

theorem gmf_fst (nm : NameManager) (c : String) (h : MeshInv nm) :
    (get_mesh_filename nm c).1 = clean_name c := by
  unfold get_mesh_filename
  cases hl : alookup nm.component_to_mesh c with
  | some m => simpa using (h c m hl)
  | none =>
    simp only [hl]
    split
    · rename_i hb
      simpa using hb.symm
    · rfl

theorem gmf_inv (nm : NameManager) (c : String) (h : MeshInv nm) :
    MeshInv (get_mesh_filename nm c).2 := by
  unfold get_mesh_filename
  cases hl : alookup nm.component_to_mesh c with
  | some m => simpa using h
  | none =>
    simp only [hl]
    split
    · rename_i hb
      intro k v hkv
      simp only [alookup_pyInsert] at hkv
      by_cases hck : c = k
      · subst hck
        rw [if_pos rfl] at hkv
        cases hkv
        exact hb.symm
      · rw [if_neg hck] at hkv
        exact h k v hkv
    · intro k v hkv
      simp only [alookup_pyInsert] at hkv
      by_cases hck : c = k
      · subst hck
        rw [if_pos rfl] at hkv
        cases hkv
        rfl
      · rw [if_neg hck] at hkv
        exact h k v hkv

theorem applyOp_inv (nm : NameManager) (op : NMOp) (h : MeshInv nm) :
    MeshInv (applyOp nm op) := by
  cases op with
  | resolveLink occ comp =>
    intro k v hkv
    simp only [applyOp] at hkv
    rw [gul_mesh_unchanged] at hkv
    exact h k v hkv
  | meshName comp => exact gmf_inv nm comp h
  | jointName s => exact h

theorem runOps_inv (ops : List NMOp) (nm : NameManager) (h : MeshInv nm) :
    MeshInv (runOps nm ops) := by
  induction ops generalizing nm with
  | nil => exact h
  | cons op tl ih => exact ih (applyOp nm op) (applyOp_inv nm op h)

/-- C9: two calls to `get_mesh_filename` with the same component name, no
matter which link-name resolutions, mesh queries or joint-name calls run
before or between them, return the same mesh base name, namely the cleaned
name with no disambiguation suffix. -/
theorem mesh_sharing (ops₁ ops₂ : List NMOp) (c : String) :
    (get_mesh_filename
        (runOps (get_mesh_filename (runOps initNM ops₁) c).2 ops₂) c).1 =
      (get_mesh_filename (runOps initNM ops₁) c).1 ∧
    (get_mesh_filename (runOps initNM ops₁) c).1 = clean_name c := by
  have i₁ : MeshInv (runOps initNM ops₁) := runOps_inv ops₁ initNM meshInv_init
  have i₂ : MeshInv (get_mesh_filename (runOps initNM ops₁) c).2 :=
    gmf_inv _ c i₁
  have i₃ : MeshInv
      (runOps (get_mesh_filename (runOps initNM ops₁) c).2 ops₂) :=
    runOps_inv ops₂ _ i₂
  exact ⟨(gmf_fst _ c i₃).trans (gmf_fst _ c i₁).symm, gmf_fst _ c i₁⟩

/-! ### C10 -/

theorem firstToken_eq_none_iff (l : List Char) :
    firstToken l = none ↔ ∀ c ∈ l, pyIsSpace c = true := by
  induction l with
  | nil => simp [firstToken]
  | cons c cs ih =>
    by_cases h : pyIsSpace c = true
    · simp [firstToken, h, ih]
    · simp [firstToken, h]

/-- C10: `is_base_link` raises (modelled as `none`) exactly on names whose
characters are all whitespace; on any other name it returns whether the
first whitespace-delimited token, lowercased, equals "base_link". The raise
is reachable inside `make_joints_dict` through a joint whose parent
component name is empty or all whitespace: the whole extraction then
crashes instead of treating the component as a non-base link. -/
theorem is_base_link_partiality :
    (∀ s : String, is_base_link s = none ↔ ∀ c ∈ s.data, pyIsSpace c = true) ∧
    (∀ (s : String) (t : List Char), firstToken s.data = some t →
        is_base_link s = some (strLower (String.mk t) == "base_link")) ∧
    make_joints_dict [jCrash] "ok" initNM = none ∧
    make_joints_dict [jCrash2] "ok" initNM = none := by
  refine ⟨?_, ?_, by decide, by decide⟩
  · intro s
    unfold is_base_link
    cases h : firstToken s.data with
    | none =>
      simp only [h]
      simpa using (firstToken_eq_none_iff s.data).mp h
    | some t =>
      simp only [h]
      constructor
      · intro hc
        cases hc
      · intro hall
        have := (firstToken_eq_none_iff s.data).mpr hall
        rw [h] at this
        cases this
  · intro s t h
    unfold is_base_link
    rw [h]

/-- C10 witness: a name with a non-whitespace character returns normally
with the first-token comparison. -/
theorem is_base_link_partiality_witness :
    firstToken ("Base_Link v9" : String).data =
      some ("Base_Link" : String).data ∧
    is_base_link "Base_Link v9" = some true := by
  refine ⟨by decide, ?_⟩
  have h := is_base_link_partiality.2.1 "Base_Link v9"
    ("Base_Link" : String).data (by decide)
  rw [h]
  decide

/-! ### C4 -/

/-- Processing a prefix that succeeds on every joint composes with the rest
of the loop. -/
theorem processJoints_append (nm : NameManager) (d : JDict) (msg : String)
    (pre rest : List JointInput) (nm₁ : NameManager) (d₁ : JDict)
    (h : runOk nm d pre = some (nm₁, d₁)) :
    processJoints nm d msg (pre ++ rest) = processJoints nm₁ d₁ msg rest := by
  induction pre generalizing nm d with
  | nil =>
    simp only [runOk, Option.some.injEq, Prod.mk.injEq] at h
    rw [List.nil_append, h.1, h.2]
  | cons j tl ih =>
    simp only [runOk] at h
    cases hs : stepJoint nm j with
    | ok nm₂ k r =>
      rw [hs] at h
      simp only [List.cons_append, processJoints, hs]
      exact ih _ _ h
    | crash =>
      rw [hs] at h
      cases h
    | brk m =>
      rw [hs] at h
      cases h

/-- A revolute or prismatic joint with exactly one enabled bound makes its
iteration `break` with the message naming the joint and the missing bound,
before any name resolution or origin computation. -/
theorem stepJoint_asym (nm : NameManager) (j : JointInput)
    (h : (jtName j = "revolute" ∧ j.rotMaxEnabled ≠ j.rotMinEnabled) ∨
         (jtName j = "prismatic" ∧ j.slideMaxEnabled ≠ j.slideMinEnabled)) :
    stepJoint nm j = StepResult.brk (j.name ++ " is not set its " ++
      asymMissing j ++ " limit. Please set it and try again.") := by
  rcases h with ⟨hty, hne⟩ | ⟨hty, hne⟩
  · unfold stepJoint limitsPhase asymMissing
    rw [hty]
    cases hmax : j.rotMaxEnabled <;> cases hmin : j.rotMinEnabled
    · rw [hmax, hmin] at hne
      cases hne rfl
    · simp
      rw [String.append_assoc, String.append_assoc]
      exact rfl
    · simp
      rw [String.append_assoc, String.append_assoc]
      exact rfl
    · rw [hmax, hmin] at hne
      cases hne rfl
  · unfold stepJoint limitsPhase asymMissing
    rw [hty]
    cases hmax : j.slideMaxEnabled <;> cases hmin : j.slideMinEnabled
    · rw [hmax, hmin] at hne
      cases hne rfl
    · simp
      rw [String.append_assoc, String.append_assoc]
      exact rfl
    · simp
      rw [String.append_assoc, String.append_assoc]
      exact rfl
    · rw [hmax, hmin] at hne
      cases hne rfl

/-- C4: when every joint before `bad` processes successfully (yielding
manager `nm₁` and dict `d`) and `bad` is a revolute or prismatic joint with
exactly one limit bound enabled, `make_joints_dict` halts at `bad`: it
returns exactly the dict of the preceding joints (no entry for `bad`, no
later joint processed) together with the message naming `bad` and its
missing bound. -/
theorem asymmetric_limit_rejection (nm₀ nm₁ : NameManager) (msg : String)
    (pre post : List JointInput) (bad : JointInput) (d : JDict)
    (hpre : runOk nm₀ [] pre = some (nm₁, d))
    (hbad : (jtName bad = "revolute" ∧ bad.rotMaxEnabled ≠ bad.rotMinEnabled) ∨
            (jtName bad = "prismatic" ∧
               bad.slideMaxEnabled ≠ bad.slideMinEnabled)) :
    make_joints_dict (pre ++ bad :: post) msg nm₀ =
      some (d, bad.name ++ " is not set its " ++ asymMissing bad ++
        " limit. Please set it and try again.") := by
  unfold make_joints_dict
  rw [processJoints_append nm₀ [] msg pre (bad :: post) nm₁ d hpre]
  simp only [processJoints, stepJoint_asym nm₁ bad hbad]

/-- C4 witness: one revolute joint with only its upper limit enabled, empty
prefix and suffix. -/
theorem asymmetric_limit_rejection_witness :
    runOk initNM [] [] = some (initNM, []) ∧
    make_joints_dict [badRev] "ok" initNM =
      some ([], "j1 is not set its lower limit. Please set it and try again.") := by
  refine ⟨rfl, ?_⟩
  have h := asymmetric_limit_rejection initNM initNM "ok" [] [] badRev []
    rfl (Or.inl ⟨by decide, by decide⟩)
  exact h

/-! ### C3 -/

/-- C3: for a joint whose geometry is fully available, if the joint origin
relative to the parent (occurrenceTwo) is within 1e-6 per axis of the
origin relative to the child (occurrenceOne), or of the child occurrence's
absolute translation, the stored xyz is the parent-relative point itself
divided by 100 and rounded to 6 decimals, with no matrix transform;
otherwise it is that point pushed through the parent's 4x4 transform, then
divided by 100 and rounded to 6 decimals. -/
theorem origin_selection (nm nm' : NameManager) (j : JointInput)
    (g : Geometry) (k : String) (r : JointRecord)
    (hg : j.geometry = some g)
    (hstep : stepJoint nm j = StepResult.ok nm' k r) :
    (allclose g.xyzFromTwoToJoint g.xyzFromOneToJoint = true ∨
        allclose g.xyzFromTwoToJoint g.xyzOfOne = true →
      r.xyz = div100round g.xyzFromTwoToJoint) ∧
    (allclose g.xyzFromTwoToJoint g.xyzFromOneToJoint = false ∧
        allclose g.xyzFromTwoToJoint g.xyzOfOne = false →
      r.xyz = div100round (trans g.mTwo g.xyzFromTwoToJoint)) := by
  have hxyz : r.xyz = jointXyz g := by
    unfold stepJoint at hstep
    cases hl : limitsPhase j (jtName j) with
    | error m =>
      rw [hl] at hstep
      cases hstep
    | ok t =>
      obtain ⟨ty, axis, ul, ll⟩ := t
      rw [hl] at hstep
      cases hn : namePhase nm j with
      | none =>
        rw [hn] at hstep
        cases hstep
      | some pc =>
        obtain ⟨p, c, nm₁⟩ := pc
        rw [hn] at hstep
        simp only [originPhase, hg] at hstep
        cases hstep
        rfl
  constructor
  · intro hc
    rw [hxyz]
    unfold jointXyz
    rcases hc with h1 | h1
    · simp [h1]
    · simp [h1]
  · intro hc
    rw [hxyz]
    unfold jointXyz
    simp [hc.1, hc.2]

/-- C3 witness: the prismatic joint `jPris` carries geometry `g0` whose
points coincide, so its stored xyz is the untransformed parent-relative
point scaled by 1/100 and rounded. -/
theorem origin_selection_witness :
    jPris.geometry = some g0 ∧
    stepJoint initNM jPris = StepResult.ok nmP "j1" recP ∧
    allclose g0.xyzFromTwoToJoint g0.xyzFromOneToJoint = true ∧
    recP.xyz = div100round g0.xyzFromTwoToJoint := by
  refine ⟨rfl, by decide, by decide, ?_⟩
  exact (origin_selection initNM nmP jPris g0 "j1" recP rfl (by decide)).1
    (Or.inl (by decide))

/-! ### C5 -/

/-- C5: a prismatic joint with both slide limits enabled stores
`upper_limit = round6(max/100)` and `lower_limit = round6(min/100)` (the
raw centimeter values rescaled to meters before rounding), while its axis
components are rounded to 6 decimals with no rescaling. -/
theorem prismatic_unit_conversion (nm nm' : NameManager) (j : JointInput)
    (k : String) (r : JointRecord)
    (hty : jtName j = "prismatic")
    (hmax : j.slideMaxEnabled = true) (hmin : j.slideMinEnabled = true)
    (hstep : stepJoint nm j = StepResult.ok nm' k r) :
    r.upper_limit = round6 (j.slideMax / 100) ∧
    r.lower_limit = round6 (j.slideMin / 100) ∧
    r.axis = roundVec j.slideAxis := by
  unfold stepJoint at hstep
  rw [hty] at hstep
  unfold limitsPhase at hstep
  rw [if_neg (by decide : ¬("prismatic" : String) = "revolute"),
    if_pos rfl, hmax, hmin] at hstep
  simp only [Bool.and_self, if_pos] at hstep
  cases hn : namePhase nm j with
  | none =>
    rw [hn] at hstep
    cases hstep
  | some pc =>
    obtain ⟨p, c, nm₁⟩ := pc
    rw [hn] at hstep
    cases ho : originPhase j with
    | error m =>
      rw [ho] at hstep
      cases hstep
    | ok xyz =>
      rw [ho] at hstep
      cases hstep
      exact ⟨rfl, rfl, rfl⟩

/-- C5 witness: raw slide limits 250 and -100 yield 2.5 and -1.0. -/
theorem prismatic_unit_conversion_witness :
    jtName jPris = "prismatic" ∧
    jPris.slideMax = 250 ∧ jPris.slideMin = -100 ∧
    stepJoint initNM jPris = StepResult.ok nmP "j1" recP ∧
    recP.upper_limit = round6 (jPris.slideMax / 100) ∧
    recP.upper_limit = 5 / 2 ∧ recP.lower_limit = -1 := by
  refine ⟨by decide, by decide, by decide, by decide, ?_, by decide, by decide⟩
  exact (prismatic_unit_conversion initNM nmP jPris "j1" recP
    (by decide) (by decide) (by decide) (by decide)).1

/-! ### C8 -/

/-- C8: a revolute joint with both rotation limits disabled is stored with
type "continuous", its axis the rotation axis vector rounded to 6 decimals,
and both limits 0.0. -/
theorem continuous_reclassification (nm nm' : NameManager) (j : JointInput)
    (k : String) (r : JointRecord)
    (hty : jtName j = "revolute")
    (hmax : j.rotMaxEnabled = false) (hmin : j.rotMinEnabled = false)
    (hstep : stepJoint nm j = StepResult.ok nm' k r) :
    r.jtype = "continuous" ∧ r.axis = roundVec j.rotationAxis ∧
    r.upper_limit = 0 ∧ r.lower_limit = 0 := by
  unfold stepJoint at hstep
  rw [hty] at hstep
  unfold limitsPhase at hstep
  rw [if_pos rfl, hmax, hmin] at hstep
  simp only [Bool.false_and, Bool.and_false, Bool.not_false, Bool.and_true,
    if_neg (by simp : ¬(false : Bool) = true), Bool.false_eq_true,
    if_false] at hstep
  cases hn : namePhase nm j with
  | none =>
    rw [hn] at hstep
    cases hstep
  | some pc =>
    obtain ⟨p, c, nm₁⟩ := pc
    rw [hn] at hstep
    cases ho : originPhase j with
    | error m =>
      rw [ho] at hstep
      cases hstep
    | ok xyz =>
      rw [ho] at hstep
      cases hstep
      exact ⟨rfl, rfl, rfl, rfl⟩

/-- C8 witness: the revolute joint `jRevC` with both limits disabled. -/
theorem continuous_reclassification_witness :
    jtName jRevC = "revolute" ∧
    jRevC.rotMaxEnabled = false ∧ jRevC.rotMinEnabled = false ∧
    stepJoint initNM jRevC = StepResult.ok nmP "j2" recC ∧
    recC.jtype = "continuous" ∧ recC.axis = roundVec jRevC.rotationAxis ∧
    recC.upper_limit = 0 ∧ recC.lower_limit = 0 := by
  refine ⟨by decide, by decide, by decide, by decide, ?_, ?_, ?_, ?_⟩
  · exact (continuous_reclassification initNM nmP jRevC "j2" recC
      (by decide) (by decide) (by decide) (by decide)).1
  · decide
  · decide
  · decide

end Fusion2Urdf
